import Mathlib

/-!
Shallow embedding of the persistent duplex session layer of the
`agent-sandbox` client: the `WebSocketConnection` class
(`src/websocket/connection.js`), the `TerminalManager` / `Terminal`
classes (`src/managers/terminal.js`) and the `WatcherManager` class
(`src/managers/watcher.js`), together with proofs about the pending-call
correlation table, the reconnect backoff, the event-handler registry,
the binary demultiplexer, one-shot command execution and the change
feed.
-/

namespace Sandbox

/-! ### Wire messages and the pending-request table -/

/-- A parsed text-frame message.  JS messages are dynamic objects; the
fields relevant to the connection layer are the `type` discriminator,
the optional `action` discriminator, the optional `requestId`
correlation id and an opaque payload. -/
structure Message where
  type : String
  action : Option String := none
  requestId : Option String := none
  payload : String := ""
deriving DecidableEq

/-- One entry of `this.pendingRequests` (resolution callbacks are
modelled by the settlement lists returned by the operations; the stored
data is the `expectedTypes` filter). -/
structure PendingEntry where
  expectedTypes : Option (List String)
deriving DecidableEq

/-- The `pendingRequests` JS `Map`, as an association list in insertion
order. -/
abbrev PendingMap := List (String × PendingEntry)

/-- `pendingRequests.get(rid)` / `pendingRequests.has(rid)`. -/
def lookupPending : PendingMap → String → Option PendingEntry
  | [], _ => none
  | e :: rest, rid => if e.1 = rid then some e.2 else lookupPending rest rid

/-- `pendingRequests.delete(rid)` (removes the first entry with that
key; a JS `Map` holds at most one). -/
def erasePending : PendingMap → String → PendingMap
  | [], _ => []
  | e :: rest, rid => if e.1 = rid then rest else e :: erasePending rest rid

/-- Number of entries with key `rid` (1 or 0 for genuine `Map` states). -/
def countPending : PendingMap → String → Nat
  | [], _ => 0
  | e :: rest, rid => (if e.1 = rid then 1 else 0) + countPending rest rid

/-- Result of `_handleTextMessage`: the updated pending table, the
resolutions performed (correlation id together with the resolving
message), and the events emitted to the handler registry. -/
structure TextResult where
  pending : PendingMap
  resolutions : List (String × Message)
  emitted : List (String × Message)
deriving DecidableEq

/-- `WebSocketConnection._handleTextMessage` (connection.js:239-276):
a `"connected"` message is emitted as the handshake event; a message
whose `requestId` matches a pending request resolves it when the stored
`expectedTypes` filter is absent/empty or contains the message type;
a same-id message of a non-matching type is re-emitted as an ordinary
event without consuming the pending entry. -/
def handleTextMessage (p : PendingMap) (m : Message) : TextResult :=
  if m.type = "connected" then
    ⟨p, [], [("connected", m)]⟩
  else
    match m.requestId with
    | some rid =>
      match lookupPending p rid with
      | some entry =>
        match entry.expectedTypes with
        | some ts =>
          if ts ≠ [] then
            if ts.contains m.type then ⟨erasePending p rid, [(rid, m)], []⟩
            else ⟨p, [], [(m.type, m)]⟩
          else ⟨erasePending p rid, [(rid, m)], []⟩
        | none => ⟨erasePending p rid, [(rid, m)], []⟩
      | none => ⟨p, [], [(m.type, m)]⟩
    | none => ⟨p, [], [(m.type, m)]⟩

/-- Deliver a sequence of inbound text frames, collecting all
resolutions in order. -/
def processMessages (p : PendingMap) : List Message → PendingMap × List (String × Message)
  | [] => (p, [])
  | m :: rest =>
    ((processMessages (handleTextMessage p m).pending rest).1,
     (handleTextMessage p m).resolutions ++ (processMessages (handleTextMessage p m).pending rest).2)

/-! ### Association-list bookkeeping lemmas -/

theorem lookupPending_eq_none_of_count_zero {p : PendingMap} {rid : String}
    (h : countPending p rid = 0) : lookupPending p rid = none := by
  induction p with
  | nil => rfl
  | cons e rest ih =>
    by_cases he : e.1 = rid
    · simp [countPending, he] at h
    · simp [countPending, he] at h
      simp [lookupPending, he, ih h]

theorem countPending_erase_of_lookup {p : PendingMap} {rid : String} {e : PendingEntry}
    (h : lookupPending p rid = some e) :
    countPending (erasePending p rid) rid + 1 = countPending p rid := by
  induction p with
  | nil => simp [lookupPending] at h
  | cons x rest ih =>
    by_cases hx : x.1 = rid
    · simp [lookupPending, hx] at h
      simp [erasePending, countPending, hx, Nat.add_comm]
    · simp [lookupPending, hx] at h
      simp [erasePending, countPending, hx, ih h, Nat.add_assoc]

theorem countPending_erase_ne {p : PendingMap} {rid rid' : String}
    (h : rid' ≠ rid) : countPending (erasePending p rid') rid = countPending p rid := by
  induction p with
  | nil => rfl
  | cons x rest ih =>
    by_cases hx : x.1 = rid'
    · have hxr : ¬ x.1 = rid := by
        intro hr; exact h (hx ▸ hr ▸ rfl)
      simp [erasePending, countPending, hx, hxr, h]
    · simp [erasePending, countPending, hx, ih]

theorem lookupPending_erase_of_count_one {p : PendingMap} {rid : String} {e : PendingEntry}
    (hl : lookupPending p rid = some e) (hc : countPending p rid = 1) :
    lookupPending (erasePending p rid) rid = none := by
  apply lookupPending_eq_none_of_count_zero
  have := countPending_erase_of_lookup hl
  omega

/-- If the correlation id is no longer pending then no message carrying
that id resolves anything and the table is left untouched. -/
theorem processMessages_of_not_pending {p : PendingMap} {rid : String}
    (hl : lookupPending p rid = none) :
    ∀ ms : List Message, (∀ m ∈ ms, m.requestId = some rid) →
      processMessages p ms = (p, []) := by
  intro ms
  induction ms with
  | nil => intro _; rfl
  | cons m rest ih =>
    intro hall
    have hm : m.requestId = some rid := hall m (List.mem_cons_self m rest)
    have hrest : ∀ m' ∈ rest, m'.requestId = some rid := by
      intro m' hm'; exact hall m' (List.mem_cons_of_mem m hm')
    by_cases hc : m.type = "connected"
    · simp only [processMessages, handleTextMessage, hc, if_pos rfl]
      simp [ih hrest]
    · simp only [processMessages, handleTextMessage, hc, if_neg hc, hm, hl]
      simp [ih hrest]

/-- Claim C1: for a pending call whose `expectedTypes` filter is the
nonempty set `ts` (not containing the reserved handshake tag), a burst
of same-id inbound replies resolves the call exactly once, with the
first reply whose type is in `ts`; non-matching same-id replies are
ignored and do not consume the pending entry (it survives until a
matching reply arrives). -/
theorem sendRequest_resolves_first_matching_reply
    (p : PendingMap) (rid : String) (ts : List String)
    (hlook : lookupPending p rid = some ⟨some ts⟩)
    (hone : countPending p rid = 1)
    (hne : ts ≠ []) (hconn : "connected" ∉ ts)
    (ms : List Message) (hall : ∀ m ∈ ms, m.requestId = some rid) :
    (processMessages p ms).2 =
      (match ms.find? (fun m => decide (m.type ∈ ts)) with
       | some m => [(rid, m)]
       | none => ([] : List (String × Message)))
    ∧ (ms.find? (fun m => decide (m.type ∈ ts)) = none →
        lookupPending (processMessages p ms).1 rid = some ⟨some ts⟩) := by
  induction ms with
  | nil => exact ⟨rfl, fun _ => hlook⟩
  | cons m rest ih =>
    have hm : m.requestId = some rid := hall m (List.mem_cons_self m rest)
    have hrest : ∀ m' ∈ rest, m'.requestId = some rid := by
      intro m' hm'; exact hall m' (List.mem_cons_of_mem m hm')
    by_cases hmem : m.type ∈ ts
    · have hc : ¬ m.type = "connected" := by
        intro hc; rw [hc] at hmem; exact hconn hmem
      have herase : lookupPending (erasePending p rid) rid = none :=
        lookupPending_erase_of_count_one hlook hone
      have hdone := processMessages_of_not_pending herase rest hrest
      have hfind : (m :: rest).find? (fun m => decide (m.type ∈ ts)) = some m :=
        List.find?_cons_of_pos rest (by simpa using hmem)
      constructor
      · rw [hfind]
        simp [processMessages, handleTextMessage, hc, hm, hlook, hne, hmem, hdone]
      · intro hf
        rw [hfind] at hf
        exact absurd hf (by simp)
    · have hfind : (m :: rest).find? (fun m => decide (m.type ∈ ts)) =
          rest.find? (fun m => decide (m.type ∈ ts)) :=
        List.find?_cons_of_neg rest (by simpa using hmem)
      have hih := ih hrest
      by_cases hc : m.type = "connected"
      · constructor
        · rw [hfind]
          simp only [processMessages, handleTextMessage, hc, if_pos rfl]
          simpa using hih.1
        · intro hf
          rw [hfind] at hf
          simp only [processMessages, handleTextMessage, hc, if_pos rfl]
          exact hih.2 hf
      · have hcontains : ts.contains m.type = false := by
          simpa using hmem
        constructor
        · rw [hfind]
          simp only [processMessages, handleTextMessage, hc, if_neg hc, hm, hlook,
            hne, if_pos hne, hcontains]
          simpa using hih.1
        · intro hf
          rw [hfind] at hf
          simp only [processMessages, handleTextMessage, hc, if_neg hc, hm, hlook,
            hne, if_pos hne, hcontains]
          simpa using hih.2 hf

/-- Witness for C1: with `expectedTypes = ["ack"]`, a same-id
`"progress"` reply followed by an `"ack"` reply resolves the call once,
with the `"ack"` message. -/
theorem sendRequest_resolves_first_matching_reply_witness :
    (processMessages [("r1", ⟨some ["ack"]⟩)]
        [⟨"progress", none, some "r1", ""⟩, ⟨"ack", none, some "r1", ""⟩]).2 =
      [("r1", ⟨"ack", none, some "r1", ""⟩)] := by
  have h := sendRequest_resolves_first_matching_reply
      [("r1", ⟨some ["ack"]⟩)] "r1" ["ack"]
      (by decide) (by decide) (by decide) (by decide)
      [⟨"progress", none, some "r1", ""⟩, ⟨"ack", none, some "r1", ""⟩]
      (by decide)
  exact h.1.trans (by decide)

/-! ### Connection state, disconnect and the reconnect state machine -/

/-- Retry configuration constants from the `WebSocketConnection`
constructor (connection.js:27-36). -/
def maxReconnectAttempts : Nat := 10

/-- `this.baseReconnectDelay` (milliseconds). -/
def baseReconnectDelay : Nat := 1000

/-- `this.maxReconnectDelay` (milliseconds). -/
def maxReconnectDelay : Nat := 30000

/-- `this.requestTimeout` (milliseconds). -/
def requestTimeout : Nat := 30000

/-- Error message thrown by `sendRequest`/`send` when not connected. -/
def notConnectedError : String := "WebSocket not connected"

/-- Error message used to reject pending calls on `disconnect()`. -/
def connectionClosedError : String := "Connection closed"

/-- Error message used to reject a pending call whose timeout fired. -/
def requestTimeoutError : String := "Request timeout"

/-- The mutable state of a `WebSocketConnection` instance.
`reconnectTimeout` is the currently *active* scheduled reconnect timer
(if any); `wsOpen` records whether a transport object is attached. -/
structure ConnState where
  isConnected : Bool
  isConnecting : Bool
  shouldReconnect : Bool
  reconnectAttempts : Nat
  reconnectTimeout : Option Nat
  pendingRequests : PendingMap
  wsOpen : Bool
deriving DecidableEq

/-- Observable side effects of `disconnect()`, in program order. -/
inductive DiscEffect where
  | setShouldReconnectFalse
  | cancelReconnectTimer (timerId : Nat)
  | rejectCall (rid : String) (reason : String)
  | closeTransport
deriving DecidableEq

/-- Whether a disconnect effect is a pending-call rejection. -/
def DiscEffect.isReject : DiscEffect → Bool
  | .rejectCall _ _ => true
  | _ => false

/-- `WebSocketConnection.disconnect` (connection.js:442-469): clears
the should-reconnect flag first, cancels a scheduled reconnect timer,
rejects every pending request with `Connection closed`, clears the
table, closes and drops the transport, and resets the connection
flags and the attempt counter.  Returns the new state and the effect
trace in program order. -/
def disconnect (st : ConnState) : ConnState × List DiscEffect :=
  let timerFx : List DiscEffect :=
    match st.reconnectTimeout with
    | some t => [.cancelReconnectTimer t]
    | none => []
  let rejFx : List DiscEffect :=
    st.pendingRequests.map (fun e => .rejectCall e.1 connectionClosedError)
  let closeFx : List DiscEffect := if st.wsOpen then [.closeTransport] else []
  ({ st with
      shouldReconnect := false
      reconnectTimeout := none
      pendingRequests := []
      wsOpen := false
      isConnected := false
      isConnecting := false
      reconnectAttempts := 0 },
   .setShouldReconnectFalse :: (timerFx ++ rejFx ++ closeFx))

/-- `WebSocketConnection._scheduleReconnect` (connection.js:205-233):
cancels any previously scheduled timer, abandons (emitting
`reconnect_failed`, the returned flag) once the attempt counter reaches
the maximum, otherwise computes `min(base * 2^attempts, cap)`,
increments the counter and arms a timer.  Returns the new state, the
scheduled delay (if any) and the `reconnect_failed` flag. -/
def scheduleReconnect (st : ConnState) (timerId : Nat) :
    ConnState × Option Nat × Bool :=
  let st0 := { st with reconnectTimeout := none }
  if st0.reconnectAttempts ≥ maxReconnectAttempts then
    (st0, none, true)
  else
    let delay := min (baseReconnectDelay * 2 ^ st0.reconnectAttempts) maxReconnectDelay
    ({ st0 with
        reconnectAttempts := st0.reconnectAttempts + 1
        reconnectTimeout := some timerId },
     some delay, false)

/-- The transport `onclose` handler (connection.js:167-178): records
disconnection and schedules a reconnect only when the session both was
connected and is still flagged for reconnection.  Returns the new
state, whether a reconnect was scheduled, and its delay. -/
def onTransportClose (st : ConnState) (timerId : Nat) :
    ConnState × Bool × Option Nat :=
  let wasConnected := st.isConnected
  let st1 := { st with isConnected := false, isConnecting := false }
  if st1.shouldReconnect && wasConnected then
    let r := scheduleReconnect st1 timerId
    (r.1, (r.2.1).isSome, r.2.1)
  else (st1, false, none)

/-- The `once('connected')` handshake handler inside `_connect`
(connection.js:186-192): marks the session connected and resets the
reconnect attempt counter to zero. -/
def onConnectedHandshake (st : ConnState) : ConnState :=
  { st with isConnected := true, isConnecting := false, reconnectAttempts := 0 }

/-! ### Sending -/

/-- `WebSocketConnection._getExpectedResponseTypes`
(connection.js:359-370). -/
def getExpectedResponseTypes (action : Option String) : Option (List String) :=
  match action with
  | some "terminal_create" => some ["terminal_created", "terminal_error"]
  | some "terminal_close" => some ["terminal_closed", "terminal_error"]
  | some "terminal_list" => some ["terminal_list", "terminal_error"]
  | some "get_state" => some ["terminal_state", "terminal_error"]
  | some "r" => some ["terminal_resized", "terminal_error"]
  | _ => none

/-- Result of a `sendRequest` call: the updated connection state, the
frames written to the transport, and either `ok` (request registered
and written, future pending) or an immediate rejection reason. -/
structure SendOutcome where
  state : ConnState
  writes : List Message
  result : Except String Unit

/-- `WebSocketConnection.sendRequest` (connection.js:300-333): rejects
with `WebSocket not connected` when not connected, otherwise stamps the
fresh correlation id onto the message, computes the expected reply
types (explicit argument, else derived from `action || type`),
registers the pending call and writes the frame; a transport write
failure (`sendOk = false`) rolls the registration back and rejects. -/
def sendRequest (st : ConnState) (m : Message) (expectedTypes : Option (List String))
    (rid : String) (sendOk : Bool) : SendOutcome :=
  if st.isConnected then
    let fullMessage := { m with requestId := some rid }
    let et := match expectedTypes with
      | some tys => some tys
      | none => getExpectedResponseTypes (m.action.orElse (fun _ => some m.type))
    let st1 := { st with pendingRequests := st.pendingRequests ++ [(rid, ⟨et⟩)] }
    if sendOk then ⟨st1, [fullMessage], .ok ()⟩
    else
      ⟨{ st1 with pendingRequests := erasePending st1.pendingRequests rid },
       [], .error "send failed"⟩
  else ⟨st, [], .error notConnectedError⟩

/-- `WebSocketConnection.send` (connection.js:376-381): fire-and-forget
write, failing with `WebSocket not connected` when not connected.
Returns the frames written and the outcome. -/
def send (st : ConnState) (m : Message) : List Message × Except String Unit :=
  if st.isConnected then ([m], .ok ())
  else ([], .error notConnectedError)

/-- Claim C2: `disconnect()` rejects every pending call with
`Connection closed`, empties the table, cancels the scheduled
reconnect timer, clears the should-reconnect flag as its very first
effect (before the transport is told to close), never schedules a
reconnect when the transport subsequently reports closure, and is a
harmless no-op on the already-disconnected state. -/
theorem disconnect_rejects_all_and_suppresses_reconnect (st : ConnState) (t : Nat) :
    ((disconnect st).2.filter DiscEffect.isReject =
      st.pendingRequests.map (fun e => DiscEffect.rejectCall e.1 connectionClosedError))
    ∧ (disconnect st).1.pendingRequests = []
    ∧ (disconnect st).1.reconnectTimeout = none
    ∧ (disconnect st).1.shouldReconnect = false
    ∧ (disconnect st).2.head? = some DiscEffect.setShouldReconnectFalse
    ∧ (onTransportClose (disconnect st).1 t).2.1 = false
    ∧ (disconnect (disconnect st).1).2.filter DiscEffect.isReject = []
    ∧ (disconnect (disconnect st).1).1 = (disconnect st).1 := by
  refine ⟨?_, rfl, rfl, rfl, rfl, ?_, rfl, rfl⟩
  · have hfix : ∀ l : PendingMap,
        (l.map (fun e => DiscEffect.rejectCall e.1 connectionClosedError)).filter
            DiscEffect.isReject =
          l.map (fun e => DiscEffect.rejectCall e.1 connectionClosedError) := by
      intro l
      apply List.filter_eq_self.mpr
      intro a ha
      obtain ⟨e, -, rfl⟩ := List.mem_map.mp ha
      rfl
    cases h : st.reconnectTimeout <;> cases hw : st.wsOpen <;>
      simp [disconnect, h, hw, List.filter_append, hfix, DiscEffect.isReject]
  · simp [onTransportClose, disconnect]

/-- Claim C3: for the `n`-th reconnect scheduling (`n ≥ 1`, the
attempt counter holding `n - 1`, within the attempt cap), the scheduled
delay is `min(1000 ms * 2^(n-1), 30000 ms)`; concretely the delay is
`1000 * 2^(n-1)` for attempts 1..5 and exactly `30000` for every
attempt from the 6th on; the counter advances to `n` and is reset to
zero by the successful-handshake handler. -/
theorem reconnect_backoff_delay (st : ConnState) (t : Nat) (n : Nat)
    (h1 : 1 ≤ n) (h2 : st.reconnectAttempts = n - 1) (h3 : n ≤ maxReconnectAttempts) :
    (scheduleReconnect st t).2.1 =
      some (min (baseReconnectDelay * 2 ^ (n - 1)) maxReconnectDelay)
    ∧ (scheduleReconnect st t).1.reconnectAttempts = n
    ∧ (n ≤ 5 → min (baseReconnectDelay * 2 ^ (n - 1)) maxReconnectDelay =
        baseReconnectDelay * 2 ^ (n - 1))
    ∧ (6 ≤ n → min (baseReconnectDelay * 2 ^ (n - 1)) maxReconnectDelay =
        maxReconnectDelay)
    ∧ (onConnectedHandshake st).reconnectAttempts = 0 := by
  have hlt : ¬ maxReconnectAttempts ≤ n - 1 := by
    simp only [maxReconnectAttempts] at h3 ⊢; omega
  refine ⟨?_, ?_, ?_, ?_, rfl⟩
  · simp [scheduleReconnect, h2, ge_iff_le, hlt]
  · simp [scheduleReconnect, h2, ge_iff_le, hlt]
    omega
  · intro h5
    have hp : 2 ^ (n - 1) ≤ 2 ^ 4 := Nat.pow_le_pow_right (by norm_num) (by omega)
    have hm : baseReconnectDelay * 2 ^ (n - 1) ≤ baseReconnectDelay * 2 ^ 4 :=
      Nat.mul_le_mul_left _ hp
    simp only [baseReconnectDelay, maxReconnectDelay] at hm ⊢
    omega
  · intro h6
    have hp : 2 ^ 5 ≤ 2 ^ (n - 1) := Nat.pow_le_pow_right (by norm_num) (by omega)
    have hm : baseReconnectDelay * 2 ^ 5 ≤ baseReconnectDelay * 2 ^ (n - 1) :=
      Nat.mul_le_mul_left _ hp
    simp only [baseReconnectDelay, maxReconnectDelay] at hm ⊢
    omega

/-- Witness for C3: the 6th scheduling (attempt counter at 5) is
capped at 30000 ms. -/
theorem reconnect_backoff_delay_witness :
    (scheduleReconnect ⟨false, false, true, 5, none, [], false⟩ 7).2.1 = some 30000 := by
  have h := reconnect_backoff_delay ⟨false, false, true, 5, none, [], false⟩ 7 6
    (by decide) (by decide) (by decide)
  rw [h.1]
  norm_num [baseReconnectDelay, maxReconnectDelay]

/-- Claim C4: `sendRequest` and `send` both fail immediately with
`WebSocket not connected` while the session is not connected, writing
nothing to the transport and leaving the connection state (in
particular the pending-request table) untouched. -/
theorem send_while_disconnected_rejects (st : ConnState) (h : st.isConnected = false)
    (m : Message) (et : Option (List String)) (rid : String) (sendOk : Bool) :
    sendRequest st m et rid sendOk = ⟨st, [], .error notConnectedError⟩
    ∧ send st m = ([], .error notConnectedError) := by
  constructor <;> simp [sendRequest, send, h]

/-- Witness for C4: a concrete disconnected state. -/
theorem send_while_disconnected_rejects_witness :
    sendRequest ⟨false, false, true, 0, none, [], false⟩ ⟨"get_state", none, none, ""⟩
        none "r9" true =
      ⟨⟨false, false, true, 0, none, [], false⟩, [], .error notConnectedError⟩
    ∧ send ⟨false, false, true, 0, none, [], false⟩ ⟨"get_state", none, none, ""⟩ =
      ([], .error notConnectedError) :=
  send_while_disconnected_rejects ⟨false, false, true, 0, none, [], false⟩ rfl
    ⟨"get_state", none, none, ""⟩ none "r9" true

/-! ### The event-handler registry (`on` / `once` / `off` / `emit`)

Handlers are modelled by marker values: `plain fid` is a function
reference registered with `on` (registering the same function twice
pushes two equal markers), and `wrap wid fid` is the fresh closure
created by `once(event, fid)` around the underlying handler `fid`
(each `once` call creates a distinct wrapper, so `wid`s are unique).
A `throws` predicate says which underlying handlers raise when
invoked. -/

/-- A registered handler entry of `this.eventHandlers.get(event)`. -/
inductive HSpec where
  | plain (fid : Nat)
  | wrap (wid : Nat) (fid : Nat)
deriving DecidableEq

/-- `off` (connection.js:413-421): `indexOf` + `splice(i, 1)`, i.e.
remove the first occurrence. -/
def removeFirst (x : HSpec) : List HSpec → List HSpec
  | [] => []
  | h :: rest => if h = x then rest else h :: removeFirst x rest

/-- Number of occurrences of a handler entry in a handler list. -/
def countH (x : HSpec) : List HSpec → Nat
  | [] => 0
  | h :: rest => (if h = x then 1 else 0) + countH x rest

/-- One `emit` dispatch (connection.js:427-437) with JS
`Array.prototype.forEach` live-array semantics: the iteration length is
captured once (the `fuel`), the element at the current index of the
*current* array is invoked (exceptions are caught by the
`try`/`catch`), and a `once` wrapper removes itself right after its
underlying handler returns (connection.js:400-406) — unless that
handler threw, in which case the `off` inside the wrapper is skipped.
Once the index reaches the (only ever shrinking) array length, the
remaining iterations visit no element.  Returns the final handler
array and the invocation log in order. -/
def emitSteps (throws : Nat → Bool) : Nat → Nat → List HSpec → List HSpec × List HSpec
  | 0, _, hs => (hs, [])
  | fuel + 1, k, hs =>
    if hk : k < hs.length then
      match hs[k] with
      | .plain f =>
        let r := emitSteps throws fuel (k + 1) hs
        (r.1, .plain f :: r.2)
      | .wrap w f =>
        if throws f then
          let r := emitSteps throws fuel (k + 1) hs
          (r.1, .wrap w f :: r.2)
        else
          let r := emitSteps throws fuel (k + 1) (removeFirst (.wrap w f) hs)
          (r.1, .wrap w f :: r.2)
    else (hs, [])

/-- A full `emit` dispatch on a handler array. -/
def emitRun (throws : Nat → Bool) (hs : List HSpec) : List HSpec × List HSpec :=
  emitSteps throws hs.length 0 hs

/-- A registry operation on one event name: `on(event, f)` or
`off(event, f)` for a plain handler reference `f`. -/
inductive RegOp where
  | onEv (fid : Nat)
  | offEv (fid : Nat)
deriving DecidableEq

/-- Apply a sequence of `on`/`off` calls to one event's handler list:
`onEv` pushes, `offEv` removes the first occurrence
(connection.js:388-393, 413-421). -/
def applyOps : List HSpec → List RegOp → List HSpec
  | hs, [] => hs
  | hs, .onEv f :: rest => applyOps (hs ++ [.plain f]) rest
  | hs, .offEv f :: rest => applyOps (removeFirst (.plain f) hs) rest

/-- All entries of a handler list are plain (no `once` wrappers). -/
def allPlain (hs : List HSpec) : Prop :=
  ∀ h ∈ hs, ∃ f, h = HSpec.plain f

theorem allPlain_removeFirst {hs : List HSpec} (x : HSpec) (h : allPlain hs) :
    allPlain (removeFirst x hs) := by
  induction hs with
  | nil => exact h
  | cons a rest ih =>
    intro b hb
    by_cases ha : a = x
    · simp only [removeFirst, if_pos ha] at hb
      exact h b (List.mem_cons_of_mem a hb)
    · simp only [removeFirst, if_neg ha] at hb
      rcases List.mem_cons.mp hb with hb | hb
      · exact h b (hb ▸ List.mem_cons_self a rest)
      · exact ih (fun c hc => h c (List.mem_cons_of_mem a hc)) b hb

theorem allPlain_applyOps {hs : List HSpec} (h : allPlain hs) :
    ∀ ops : List RegOp, allPlain (applyOps hs ops) := by
  intro ops
  induction ops generalizing hs with
  | nil => exact h
  | cons op rest ih =>
    cases op with
    | onEv f =>
      apply ih
      intro b hb
      rcases List.mem_append.mp hb with hb | hb
      · exact h b hb
      · exact ⟨f, by simpa using hb⟩
    | offEv f => exact ih (allPlain_removeFirst _ h)

/-- On an all-plain handler list, one dispatch invokes exactly the
registered handlers, in order, whatever the `throws` predicate says,
and leaves the list unchanged. -/
theorem emitSteps_allPlain (throws : Nat → Bool) :
    ∀ (fuel k : Nat) (hs : List HSpec), allPlain hs →
      emitSteps throws fuel k hs = (hs, (hs.drop k).take fuel) := by
  intro fuel
  induction fuel with
  | zero => intro k hs _; simp [emitSteps]
  | succ fuel ih =>
    intro k hs hp
    by_cases hk : k < hs.length
    · obtain ⟨f, hf⟩ := hp hs[k] (List.getElem_mem hk)
      rw [List.drop_eq_getElem_cons hk]
      simp only [emitSteps, dif_pos hk, hf, ih (k + 1) hs hp, List.take_succ_cons]
    · have hd : hs.drop k = [] := List.drop_eq_nil_of_le (Nat.le_of_not_lt hk)
      simp [emitSteps, dif_neg hk, hd]

/-- Claim C5: for every sequence of `on`/`off` registry operations
followed by a dispatch, the handlers invoked are exactly the registered
occurrences in order (so a handler whose registrations were all removed
with `off` is never invoked, one registered twice is invoked twice) and
the invocation list does not depend on which handlers throw (a throwing
handler never prevents the remaining handlers from running); moreover a
trailing `off` removes exactly the first matching registration and a
trailing `on` appends one. -/
theorem registry_dispatch_invokes_registered
    (ops : List RegOp) (throws : Nat → Bool) (f : Nat) :
    (emitRun throws (applyOps [] ops)).2 = applyOps [] ops
    ∧ (emitRun throws (applyOps [] ops)).2.count (HSpec.plain f) =
        (applyOps [] ops).count (HSpec.plain f)
    ∧ applyOps [] (ops ++ [RegOp.offEv f]) = removeFirst (HSpec.plain f) (applyOps [] ops)
    ∧ applyOps [] (ops ++ [RegOp.onEv f]) = applyOps [] ops ++ [HSpec.plain f] := by
  have hp : allPlain (applyOps [] ops) := allPlain_applyOps (by intro b hb; cases hb) ops
  have hrun : emitRun throws (applyOps [] ops) =
      (applyOps [] ops, applyOps [] ops) := by
    rw [emitRun, emitSteps_allPlain throws _ 0 _ hp]
    simp
  have happ : ∀ (hs : List HSpec) (l1 l2 : List RegOp),
      applyOps hs (l1 ++ l2) = applyOps (applyOps hs l1) l2 := by
    intro hs l1
    induction l1 generalizing hs with
    | nil => intro l2; rfl
    | cons op rest ih =>
      intro l2
      cases op with
      | onEv g => simpa [applyOps] using ih (hs ++ [.plain g]) l2
      | offEv g => simpa [applyOps] using ih (removeFirst (.plain g) hs) l2
  refine ⟨by rw [hrun], by rw [hrun], ?_, ?_⟩
  · rw [happ]; rfl
  · rw [happ]; rfl

/-! ### One-shot handlers (`once`) -/

theorem countH_removeFirst_self {l : List HSpec} {x : HSpec} (h : x ∈ l) :
    countH x (removeFirst x l) + 1 = countH x l := by
  induction l with
  | nil => cases h
  | cons a rest ih =>
    by_cases ha : a = x
    · subst ha
      simp [removeFirst, countH]
      omega
    · have hm : x ∈ rest := by
        rcases List.mem_cons.mp h with h | h
        · exact absurd h.symm ha
        · exact h
      have hih := ih hm
      simp only [removeFirst, if_neg ha, countH, if_neg ha]
      omega

theorem countH_removeFirst_ne {l : List HSpec} {x y : HSpec} (h : y ≠ x) :
    countH y (removeFirst x l) = countH y l := by
  induction l with
  | nil => rfl
  | cons a rest ih =>
    by_cases ha : a = x
    · simp [removeFirst, countH, ha, if_neg (Ne.symm h), h]
    · simp [removeFirst, countH, ha, ih]

/-- Conservation for a non-throwing `once` wrapper through one
dispatch: every copy of the wrapper either is still registered
afterwards or was invoked (and removed itself) during the dispatch. -/
theorem emitSteps_wrap_conservation (throws : Nat → Bool) (wid f : Nat)
    (hf : throws f = false) :
    ∀ (fuel k : Nat) (hs : List HSpec),
      countH (.wrap wid f) (emitSteps throws fuel k hs).1
          + countH (.wrap wid f) (emitSteps throws fuel k hs).2
        = countH (.wrap wid f) hs := by
  intro fuel
  induction fuel with
  | zero => intro k hs; simp [emitSteps, countH]
  | succ fuel ih =>
    intro k hs
    by_cases hk : k < hs.length
    · cases hg : hs[k] with
      | plain g =>
        have h1 := ih (k + 1) hs
        simp only [emitSteps, dif_pos hk, hg, countH]
        rw [if_neg (by simp)]
        omega
      | wrap w g =>
        by_cases heq : HSpec.wrap w g = HSpec.wrap wid f
        · rw [heq] at hg
          have hmem : HSpec.wrap wid f ∈ hs := hg ▸ List.getElem_mem hk
          have h1 := ih (k + 1) (removeFirst (.wrap wid f) hs)
          have h2 : countH (HSpec.wrap wid f)
                (removeFirst (HSpec.wrap wid f) hs) + 1 =
              countH (HSpec.wrap wid f) hs := countH_removeFirst_self hmem
          simp [emitSteps, dif_pos hk, hg, hf, countH]
          omega
        · have h1t := ih (k + 1) hs
          have h1r := ih (k + 1) (removeFirst (.wrap w g) hs)
          have h2 : countH (HSpec.wrap wid f) (removeFirst (HSpec.wrap w g) hs) =
              countH (HSpec.wrap wid f) hs :=
            countH_removeFirst_ne (fun hx => heq hx.symm)
          cases hth : throws g
          · simp [emitSteps, dif_pos hk, hg, hth, countH, heq]
            omega
          · simp [emitSteps, dif_pos hk, hg, hth, countH, heq]
            omega
    · simp [emitSteps, dif_neg hk, countH]

/-- Counterexample to claim C9 as stated: register two one-shot
handlers for the same event (`once` wrappers 1 and 2 around handlers
10 and 20).  During the first dispatch wrapper 1 invokes its handler
and splices itself out of the live array, so the `forEach` skips
wrapper 2: after the first dispatch wrapper 2 is still registered
(its one-shot registration was not removed), its handler was not
invoked, and a second dispatch of the same event does invoke it. -/
theorem once_removed_after_dispatch_counterexample :
    countH (HSpec.wrap 2 20)
        (emitRun (fun _ => false) [HSpec.wrap 1 10, HSpec.wrap 2 20]).1 = 1
    ∧ (emitRun (fun _ => false) [HSpec.wrap 1 10, HSpec.wrap 2 20]).2 =
        [HSpec.wrap 1 10]
    ∧ (emitRun (fun _ => false)
        ((emitRun (fun _ => false) [HSpec.wrap 1 10, HSpec.wrap 2 20]).1)).2 =
        [HSpec.wrap 2 20] := by
  decide

/-- Claim C9 (amended): a non-throwing handler registered once via
`once` is invoked at most once across dispatches — if its wrapper was
invoked during a dispatch, the wrapper has removed itself from the
registry, and a subsequent dispatch of the same event does not invoke
it again.  (As stated the claim fails: a wrapper can be skipped — and
therefore survive — when the handler just before it in the same
dispatch was a self-removing one-shot; see the counterexample.) -/
theorem once_invoked_at_most_once (hs : List HSpec) (throws : Nat → Bool)
    (wid f : Nat) (hf : throws f = false)
    (h1 : countH (HSpec.wrap wid f) hs = 1)
    (hinv : 1 ≤ countH (HSpec.wrap wid f) (emitRun throws hs).2) :
    countH (HSpec.wrap wid f) (emitRun throws hs).1 = 0
    ∧ countH (HSpec.wrap wid f) (emitRun throws (emitRun throws hs).1).2 = 0 := by
  have hc1 : countH (HSpec.wrap wid f) (emitRun throws hs).1
        + countH (HSpec.wrap wid f) (emitRun throws hs).2
      = countH (HSpec.wrap wid f) hs :=
    emitSteps_wrap_conservation throws wid f hf hs.length 0 hs
  have hc2 : countH (HSpec.wrap wid f) (emitRun throws (emitRun throws hs).1).1
        + countH (HSpec.wrap wid f) (emitRun throws (emitRun throws hs).1).2
      = countH (HSpec.wrap wid f) (emitRun throws hs).1 :=
    emitSteps_wrap_conservation throws wid f hf (emitRun throws hs).1.length 0
      (emitRun throws hs).1
  rw [h1] at hc1
  omega

/-- Witness for the amended C9: a single non-throwing one-shot handler
is removed by the dispatch that invokes it, and absent from the second
dispatch. -/
theorem once_invoked_at_most_once_witness :
    countH (HSpec.wrap 1 10) (emitRun (fun _ => false) [HSpec.wrap 1 10]).1 = 0
    ∧ countH (HSpec.wrap 1 10)
        (emitRun (fun _ => false)
          ((emitRun (fun _ => false) [HSpec.wrap 1 10]).1)).2 = 0 :=
  once_invoked_at_most_once [HSpec.wrap 1 10] (fun _ => false) 1 10 rfl
    (by decide) (by decide)

/-! ### Binary channel demultiplexer and terminal data callbacks -/

/-- Argument of an event emitted for a binary frame: a channel-scoped
event carries only the payload bytes, the generic `"binary"` event
carries the id/payload pair. -/
inductive EmitArg where
  | bytes (output : List Nat)
  | binPair (terminalId : Nat) (output : List Nat)
deriving DecidableEq

/-- Event name `terminal:<id>` used both by the demultiplexer and by a
`Terminal`'s data-callback registration (terminal.js:257). -/
def terminalDataEventName (id : Nat) : String := "terminal:" ++ Nat.repr id

/-- `WebSocketConnection._handleBinaryMessage` (connection.js:282-292):
the first byte is the channel (terminal) id, the remaining bytes the
payload; one channel-scoped event and one generic `"binary"` event are
emitted, in that order.  (For the empty frame, JS would read
`undefined`; claims only concern nonempty frames.) -/
def handleBinaryMessage (data : List Nat) : List (String × EmitArg) :=
  let terminalId := data.headI
  let output := data.tail
  [(terminalDataEventName terminalId, .bytes output),
   ("binary", .binPair terminalId output)]

/-- `new TextDecoder().decode` as used by a Terminal data handler
(terminal.js:253-255), on the ASCII payloads the claims concern
(non-ASCII bytes are mapped to the replacement character). -/
def textDecode (bytes : List Nat) : String :=
  String.mk (bytes.map (fun b => if b < 128 then Char.ofNat b else Char.ofNat 65533))

/-- Dispatch of one inbound binary frame to the data callbacks of the
given Terminal instances (each Terminal with id `tid` has its decoded
data handler registered under `terminal:<tid>`, terminal.js:252-258):
returns the invocations `(terminal id, decoded text)` performed. -/
def deliverBinaryFrame (tids : List Nat) (data : List Nat) : List (Nat × String) :=
  ((handleBinaryMessage data).map (fun ev =>
    match ev.2 with
    | .bytes out =>
      (tids.filter (fun tid => terminalDataEventName tid = ev.1)).map
        (fun tid => (tid, textDecode out))
    | .binPair _ _ => [])).flatten

/-- Claim C6: an inbound binary frame is split into first byte
(channel id) and remaining payload, emitting exactly the channel-scoped
event (payload only) and the generic catch-all event (id and payload);
concretely, the frame `[3, 'h', 'i']` delivered to a session holding
one Terminal of id 3 (and none of id 4) invokes exactly channel 3's
data callback, with decoded payload `"hi"`, and would invoke no
callback of a terminal with a different id. -/
theorem binary_frame_demultiplexes (data : List Nat) (h : data ≠ []) :
    handleBinaryMessage data =
      [(terminalDataEventName (data.head h), EmitArg.bytes data.tail),
       ("binary", EmitArg.binPair (data.head h) data.tail)]
    ∧ deliverBinaryFrame [3] [3, 104, 105] = [(3, "hi")]
    ∧ deliverBinaryFrame [4] [3, 104, 105] = [] := by
  refine ⟨?_, by decide, by decide⟩
  cases data with
  | nil => exact absurd rfl h
  | cons b rest => rfl

/-- Witness for C6: the concrete frame `[3, 'h', 'i']`. -/
theorem binary_frame_demultiplexes_witness :
    handleBinaryMessage [3, 104, 105] =
      [(terminalDataEventName 3, EmitArg.bytes [104, 105]),
       ("binary", EmitArg.binPair 3 [104, 105])]
    ∧ deliverBinaryFrame [3] [3, 104, 105] = [(3, "hi")] := by
  have h := binary_frame_demultiplexes [3, 104, 105] (by decide)
  exact ⟨h.1, h.2.1⟩

/-! ### The change-feed manager (`WatcherManager`) -/

/-- State of a `WatcherManager` (managers/watcher.js:10-22): the
active flag and the four callback lists (callbacks are modelled by
numeric identifiers). -/
structure WatcherState where
  isWatching : Bool
  handlersAdd : List Nat
  handlersChange : List Nat
  handlersUnlink : List Nat
  handlersError : List Nat
deriving DecidableEq

/-- The fire-and-forget `stop_watch` frame sent by `stop()`. -/
def stopWatchMessage : Message := ⟨"stop_watch", none, none, ""⟩

/-- `WatcherManager.stop` (managers/watcher.js:98-120): returns
immediately when no watch is active; otherwise sends `stop_watch`
(only while the connection is live), clears the active flag and resets
every callback list.  Returns the new state and the frames sent. -/
def watcherStop (st : WatcherState) (connected : Bool) : WatcherState × List Message :=
  if st.isWatching then
    (⟨false, [], [], [], []⟩, if connected then [stopWatchMessage] else [])
  else (st, [])

/-- `WatcherManager.on` (managers/watcher.js:134-140): push the
callback onto the list for a known event kind; unknown kinds are
ignored with a warning. -/
def watcherOn (st : WatcherState) (event : String) (h : Nat) : WatcherState :=
  if event = "add" then { st with handlersAdd := st.handlersAdd ++ [h] }
  else if event = "change" then { st with handlersChange := st.handlersChange ++ [h] }
  else if event = "unlink" then { st with handlersUnlink := st.handlersUnlink ++ [h] }
  else if event = "error" then { st with handlersError := st.handlersError ++ [h] }
  else st

/-- Delivery of a `watch_change` notification
(managers/watcher.js:30,170-180): every registered change callback is
invoked with the path. -/
def watcherDeliverChange (st : WatcherState) (path : String) : List (Nat × String) :=
  st.handlersChange.map (fun h => (h, path))

/-- Counterexample to claim C7 as stated: with no watch active and one
change callback registered via `on`, `stop()` hits the
`if (!this.isWatching) return` guard — it sends no `stop_watch`
message and clears nothing, so a change notification arriving after
`stop()` still invokes the previously registered callback. -/
theorem watcher_stop_unconditional_counterexample :
    watcherStop (watcherOn ⟨false, [], [], [], []⟩ "change" 7) true =
      (⟨false, [], [7], [], []⟩, [])
    ∧ watcherDeliverChange
        (watcherStop (watcherOn ⟨false, [], [], [], []⟩ "change" 7) true).1 "a.txt" =
      [(7, "a.txt")] := by
  decide

/-- Claim C7 (amended): `stop()` on an *active* watch sends the
`stop_watch` message (when the connection is live), clears the active
flag and all registered callbacks, so a change notification arriving
afterwards invokes no previously registered callback; when no watch is
active, `stop()` is instead a harmless no-op that sends nothing and
leaves the callback lists untouched. -/
theorem watcher_stop_clears_when_active (st : WatcherState) (connected : Bool)
    (path : String) (h : st.isWatching = true) :
    (watcherStop st connected).2 = (if connected then [stopWatchMessage] else [])
    ∧ (watcherStop st connected).1 = ⟨false, [], [], [], []⟩
    ∧ watcherDeliverChange (watcherStop st connected).1 path = []
    ∧ ∀ (st2 : WatcherState) (c2 : Bool), st2.isWatching = false →
        watcherStop st2 c2 = (st2, []) := by
  refine ⟨?_, ?_, ?_, ?_⟩
  · simp [watcherStop, h]
  · simp [watcherStop, h]
  · simp [watcherStop, h, watcherDeliverChange]
  · intro st2 c2 h2
    simp [watcherStop, h2]

/-- Witness for the amended C7: stopping an active watch with one
registered change callback. -/
theorem watcher_stop_clears_when_active_witness :
    (watcherStop ⟨true, [], [5], [], []⟩ true).2 = [stopWatchMessage]
    ∧ watcherDeliverChange (watcherStop ⟨true, [], [5], [], []⟩ true).1 "b.txt" = [] := by
  have h := watcher_stop_clears_when_active ⟨true, [], [5], [], []⟩ true "b.txt" rfl
  exact ⟨h.1.trans (by decide), h.2.2.1⟩

/-! ### One-shot command execution (`TerminalManager.execute`) -/

/-- The base64 value of a character (standard alphabet); characters
outside the alphabet (including padding) contribute no bits, as with
Node's lenient `Buffer.from(s, 'base64')`. -/
def b64val (c : Char) : Option Nat :=
  if 65 ≤ c.toNat ∧ c.toNat ≤ 90 then some (c.toNat - 65)
  else if 97 ≤ c.toNat ∧ c.toNat ≤ 122 then some (c.toNat - 97 + 26)
  else if 48 ≤ c.toNat ∧ c.toNat ≤ 57 then some (c.toNat - 48 + 52)
  else if c.toNat = 43 then some 62
  else if c.toNat = 47 then some 63
  else none

/-- Reassemble 6-bit groups into bytes (a trailing group of fewer than
8 leftover bits is dropped, as `Buffer.from(_, 'base64')` does). -/
def b64groups : List Nat → List Nat
  | a :: b :: c :: d :: rest =>
    (a * 4 + b / 16) :: ((b % 16) * 16 + c / 4) :: ((c % 4) * 64 + d) :: b64groups rest
  | [a, b] => [a * 4 + b / 16]
  | [a, b, c] => [a * 4 + b / 16, (b % 16) * 16 + c / 4]
  | _ => []

/-- `Buffer.from(s, 'base64')`: decode a base64 string to bytes. -/
def base64Decode (s : String) : List Nat :=
  b64groups (s.toList.filterMap b64val)

/-- The shape of `response.exit.code` in an `execute` reply: either a
plain number or an object holding `exitCode` and `signal` fields. -/
inductive ExitCodeField where
  | num (n : Int)
  | obj (exitCode : Option Int) (signal : Option Int)
deriving DecidableEq

/-- The `response.exit` object. -/
structure ExitInfo where
  code : Option ExitCodeField := none
  signal : Option Int := none
deriving DecidableEq

/-- The reply message consumed by `TerminalManager.execute`
(the fields its lines 78-86 read). -/
structure ExecResponse where
  type : String := ""
  error : Option String := none
  exit : Option ExitInfo := none
  exitCode : Option Int := none
  signal : Option Int := none
  logs : Option String := none
deriving DecidableEq

/-- JS truthiness of an optional number (`undefined` and `0` are
falsy). -/
def truthyInt : Option Int → Bool
  | some n => n ≠ 0
  | none => false

/-- JS truthiness of an optional string (`undefined` and `""` are
falsy). -/
def truthyStr : Option String → Bool
  | some str => str ≠ ""
  | none => false

/-- A JS value produced by the exit-code fallback chain: a number, or
(in the degenerate object case) the `exit.code` object itself. -/
inductive JsCodeVal where
  | num (n : Int)
  | objVal (exitCode : Option Int) (signal : Option Int)
deriving DecidableEq

/-- `response.exit?.code?.exitCode || response.exit?.code ||
response.exitCode || 0` (managers/terminal.js:83) with JS `||`
semantics (first truthy operand; an object operand is always truthy). -/
def exitCodeOf (r : ExecResponse) : JsCodeVal :=
  let codeF := r.exit.bind ExitInfo.code
  let a : Option Int := match codeF with
    | some (.obj ec _) => ec
    | _ => none
  let tail : JsCodeVal := match r.exitCode with
    | some n => if n ≠ 0 then .num n else .num 0
    | none => .num 0
  if truthyInt a then .num (a.getD 0)
  else match codeF with
    | some (.num n) => if n ≠ 0 then .num n else tail
    | some (.obj ec sg) => .objVal ec sg
    | none => tail

/-- `response.exit?.code?.signal || response.exit?.signal ||
response.signal || 0` (managers/terminal.js:84). -/
def signalOf (r : ExecResponse) : Int :=
  let a : Option Int := match r.exit.bind ExitInfo.code with
    | some (.obj _ sg) => sg
    | _ => none
  if truthyInt a then a.getD 0
  else if truthyInt (r.exit.bind ExitInfo.signal) then
    (r.exit.bind ExitInfo.signal).getD 0
  else if truthyInt r.signal then r.signal.getD 0
  else 0

/-- Options accepted by `execute`. -/
structure ExecOptions where
  command : String := ""
  args : List String := []
  cwd : Option String := none
  timeout : Option Int := none
  terminalId : Option Nat := none
deriving DecidableEq

/-- The `terminal_create` request built by `execute`
(managers/terminal.js:60-74): a task-flagged, forced, log-collecting
session that awaits command completion server-side. -/
structure ExecMessage where
  action : String
  terminalId : Nat
  command : String
  args : List String
  task : Bool
  force : Bool
  withLogs : Bool
  awaitFinish : Bool
  timeout : Int
  cols : Nat
  rows : Nat
  cwd : Option String
deriving DecidableEq

/-- Build the outbound message of `execute`. -/
def executeMessage (o : ExecOptions) : ExecMessage :=
  { action := "terminal_create"
    terminalId := o.terminalId.getD 0
    command := o.command
    args := o.args
    task := true
    force := true
    withLogs := true
    awaitFinish := true
    timeout := match o.timeout with
      | some t => if t ≠ 0 then t else 30000
      | none => 30000
    cols := 120
    rows := 30
    cwd := o.cwd }

/-- The decoded result record returned by `execute`
(managers/terminal.js:82-86). -/
structure ExecResult where
  exitCode : JsCodeVal
  signal : Int
  logs : String
deriving DecidableEq

/-- Outcome of `execute(options)` against a given reply: a missing
command throws; an error-carrying reply is returned as-is; otherwise
the decoded `{exitCode, signal, logs}` record is produced. -/
inductive ExecOutcome where
  | missingCommand
  | errorResponse (r : ExecResponse)
  | ok (res : ExecResult)
deriving DecidableEq

/-- `TerminalManager.execute` (managers/terminal.js:53-87), given the
matching reply from the peer. -/
def execute (o : ExecOptions) (response : ExecResponse) : ExecOutcome :=
  if o.command = "" then .missingCommand
  else if truthyStr response.error then .errorResponse response
  else .ok
    { exitCode := exitCodeOf response
      signal := signalOf response
      logs := textDecode (base64Decode (response.logs.getD "")) }

/-- The stub peer reply of claim C8: base64 logs for `"ok\n"`, exit
code 0, no error field. -/
def c8Response : ExecResponse :=
  { type := "terminal_created", exitCode := some 0, logs := some "b2sK" }

/-- Claim C8: `execute({command: "echo ok"})` against a reply carrying
base64 logs `"b2sK"` (i.e. `"ok\n"`) and exit code 0 with no error
field returns the decoded record with `exitCode = 0` and
`logs = "ok\n"` — a plain result, produced via a task-flagged,
await-finish, log-collecting creation request. -/
theorem execute_decodes_stub_reply :
    execute { command := "echo ok" } c8Response =
      .ok { exitCode := .num 0, signal := 0, logs := "ok\n" }
    ∧ (executeMessage { command := "echo ok" }).task = true
    ∧ (executeMessage { command := "echo ok" }).awaitFinish = true
    ∧ (executeMessage { command := "echo ok" }).withLogs = true := by
  refine ⟨?_, rfl, rfl, rfl⟩
  decide

/-! ### At-most-once settlement of a pending call -/

/-- A settlement of a pending call: resolution with a reply, or
rejection with an error message. -/
inductive Settlement where
  | resolved (rid : String) (m : Message)
  | rejected (rid : String) (reason : String)
deriving DecidableEq

/-- The correlation id a settlement concerns. -/
def Settlement.rid : Settlement → String
  | .resolved r _ => r
  | .rejected r _ => r

/-- Number of settlements for a given correlation id. -/
def settledFor (rid : String) : List Settlement → Nat
  | [] => 0
  | s :: rest => (if s.rid = rid then 1 else 0) + settledFor rid rest

/-- An event that can settle pending calls: an inbound text frame, a
request-timeout callback firing (connection.js:316-321, which checks
`pendingRequests.has(requestId)` before rejecting), or a `disconnect()`
call (connection.js:451-456). -/
inductive PendingEvent where
  | inbound (m : Message)
  | timeoutFire (rid : String)
  | disconnectCall
deriving DecidableEq

/-- The `setTimeout` callback of `sendRequest`: reject with
`Request timeout` only if the id is still in the table, deleting it. -/
def onRequestTimeout (p : PendingMap) (rid : String) : PendingMap × List Settlement :=
  match lookupPending p rid with
  | some _ => (erasePending p rid, [.rejected rid requestTimeoutError])
  | none => (p, [])

/-- Apply one settling event to the pending table. -/
def stepPending (p : PendingMap) : PendingEvent → PendingMap × List Settlement
  | .inbound m =>
    let r := handleTextMessage p m
    (r.pending, r.resolutions.map (fun x => .resolved x.1 x.2))
  | .timeoutFire rid => onRequestTimeout p rid
  | .disconnectCall =>
    ([], p.map (fun e => .rejected e.1 connectionClosedError))

/-- Run a sequence of settling events. -/
def runPending (p : PendingMap) : List PendingEvent → PendingMap × List Settlement
  | [] => (p, [])
  | e :: rest =>
    ((runPending (stepPending p e).1 rest).1,
     (stepPending p e).2 ++ (runPending (stepPending p e).1 rest).2)

theorem settledFor_append (rid : String) (l1 l2 : List Settlement) :
    settledFor rid (l1 ++ l2) = settledFor rid l1 + settledFor rid l2 := by
  induction l1 with
  | nil => simp [settledFor]
  | cons s rest ih => simp [settledFor, ih]; omega

/-- One settling event conserves `pending entries + settlements` for
every correlation id: whichever path settles a call also removes its
table entry, and the timeout path checks membership first. -/
theorem stepPending_conservation (p : PendingMap) (e : PendingEvent) (rid : String) :
    countPending (stepPending p e).1 rid + settledFor rid (stepPending p e).2 =
      countPending p rid := by
  cases e with
  | inbound m =>
    by_cases hc : m.type = "connected"
    · simp [stepPending, handleTextMessage, hc, settledFor]
    · cases hreq : m.requestId with
      | none => simp [stepPending, handleTextMessage, hc, hreq, settledFor]
      | some rid2 =>
        cases hlook : lookupPending p rid2 with
        | none => simp [stepPending, handleTextMessage, hc, hreq, hlook, settledFor]
        | some entry =>
          have hres : countPending (erasePending p rid2) rid +
              settledFor rid [Settlement.resolved rid2 m] = countPending p rid := by
            by_cases hr : rid2 = rid
            · subst hr
              have := countPending_erase_of_lookup hlook
              simp [settledFor, Settlement.rid]
              omega
            · rw [countPending_erase_ne hr]
              simp [settledFor, Settlement.rid, hr]
          cases hts : entry.expectedTypes with
          | none => simpa [stepPending, handleTextMessage, hc, hreq, hlook, hts,
              settledFor, Settlement.rid] using hres
          | some ts =>
            by_cases hne : ts = []
            · simpa [stepPending, handleTextMessage, hc, hreq, hlook, hts, hne,
                settledFor, Settlement.rid] using hres
            · by_cases hmem : m.type ∈ ts
              · simpa [stepPending, handleTextMessage, hc, hreq, hlook, hts, hne,
                  hmem, settledFor, Settlement.rid] using hres
              · simp [stepPending, handleTextMessage, hc, hreq, hlook, hts, hne,
                  hmem, settledFor]
  | timeoutFire rid2 =>
    cases hlook : lookupPending p rid2 with
    | none => simp [stepPending, onRequestTimeout, hlook, settledFor]
    | some entry =>
      by_cases hr : rid2 = rid
      · subst hr
        have := countPending_erase_of_lookup hlook
        simp [stepPending, onRequestTimeout, hlook, settledFor, Settlement.rid]
        omega
      · rw [stepPending]
        simp only [onRequestTimeout, hlook]
        rw [countPending_erase_ne hr]
        simp [settledFor, Settlement.rid, hr]
  | disconnectCall =>
    simp only [stepPending, countPending]
    induction p with
    | nil => simp [settledFor, countPending]
    | cons x rest ih =>
      simp only [List.map_cons, settledFor, Settlement.rid, countPending]
      omega

/-- Conservation along a whole event sequence. -/
theorem runPending_conservation (evs : List PendingEvent) :
    ∀ (p : PendingMap) (rid : String),
      countPending (runPending p evs).1 rid + settledFor rid (runPending p evs).2 =
        countPending p rid := by
  induction evs with
  | nil => intro p rid; simp [runPending, settledFor]
  | cons e rest ih =>
    intro p rid
    have h1 := stepPending_conservation p e rid
    have h2 := ih (stepPending p e).1 rid
    simp only [runPending, settledFor_append]
    omega

/-- Claim C10: a pending call settles at most once — for any
interleaving of inbound replies, timeout firings and `disconnect()`
calls, the number of settlements of a call pending exactly once is at
most one, and together with any entry still pending totals exactly
one (whichever event settles first removes the table entry and every
later event finds the table without it). -/
theorem pending_call_settles_at_most_once
    (p : PendingMap) (rid : String) (h1 : countPending p rid = 1)
    (evs : List PendingEvent) :
    settledFor rid (runPending p evs).2 ≤ 1
    ∧ settledFor rid (runPending p evs).2 +
        countPending (runPending p evs).1 rid = 1 := by
  have := runPending_conservation evs p rid
  rw [h1] at this
  omega

/-- Witness for C10: a call pending once, hit by a matching reply,
then its timeout, then a disconnect — settled exactly once. -/
theorem pending_call_settles_at_most_once_witness :
    settledFor "r1"
        (runPending [("r1", ⟨some ["ack"]⟩)]
          [.inbound ⟨"ack", none, some "r1", ""⟩, .timeoutFire "r1",
           .disconnectCall]).2 ≤ 1
    ∧ settledFor "r1"
        (runPending [("r1", ⟨some ["ack"]⟩)]
          [.inbound ⟨"ack", none, some "r1", ""⟩, .timeoutFire "r1",
           .disconnectCall]).2 +
        countPending
          (runPending [("r1", ⟨some ["ack"]⟩)]
            [.inbound ⟨"ack", none, some "r1", ""⟩, .timeoutFire "r1",
             .disconnectCall]).1 "r1" = 1 :=
  pending_call_settles_at_most_once [("r1", ⟨some ["ack"]⟩)] "r1" (by decide)
    [.inbound ⟨"ack", none, some "r1", ""⟩, .timeoutFire "r1", .disconnectCall]

end Sandbox
